import Mathlib

/-!
Verification development for the AutoScan backend's comparable-matching and
price-estimation core (`app/api_server.py`, `app/estimators.py`, and the
scraper-side fuel classifier in `app/sources/sauto.py`).

The Python code is shallowly embedded:
* free text is `String` / `List Char`; Python `str.lower()` is modelled on
  the ASCII range (`toLowerM`), Python `str.strip()` as `trim`;
* `unicodedata.normalize("NFD", ·)` followed by removal of combining marks
  (category `Mn`) is modelled by `decompChar` / `isMn`, with the canonical
  decomposition table restricted to the Czech/Slovak diacritic set the
  system documents; all other characters decompose to themselves;
* SQL `LIKE '%pat%'` is substring containment after ASCII lowering
  (SQLite's `LIKE` is ASCII-case-insensitive); `BETWEEN` is an inclusive
  range; `ORDER BY a, b, c` is sorting by the lexicographic order of the
  three keys (SQL `NULL`s order first in ascending order); `LIMIT` is
  `List.take` applied after sorting;
* machine ints are `ℤ`; Python floats are idealised as `ℚ`; Python `round`
  (round-half-to-even) is `pyRound`; `float("nan")` results of
  `_percentile` are `Option.none`;
* a SQL row / Python dict is a structure with `Option` fields where the
  code tolerates missing values.
-/

namespace AutoScan

/-! ### Characters: lowering, combining marks, NFD decomposition table -/

/-- ASCII case folding, the fragment of Python `str.lower()` / SQL `LOWER`
exercised by the folded keys (all decomposition bases are ASCII). -/
def toLowerM : Char → Char
  | 'A' => 'a' | 'B' => 'b' | 'C' => 'c' | 'D' => 'd' | 'E' => 'e'
  | 'F' => 'f' | 'G' => 'g' | 'H' => 'h' | 'I' => 'i' | 'J' => 'j'
  | 'K' => 'k' | 'L' => 'l' | 'M' => 'm' | 'N' => 'n' | 'O' => 'o'
  | 'P' => 'p' | 'Q' => 'q' | 'R' => 'r' | 'S' => 's' | 'T' => 't'
  | 'U' => 'u' | 'V' => 'v' | 'W' => 'w' | 'X' => 'x' | 'Y' => 'y'
  | 'Z' => 'z'
  | c => c

/-- Combining marks (Unicode category `Mn`) produced by the decomposition
table below: combining acute, caron, and ring above. -/
def isMn (c : Char) : Bool :=
  c == '́' || c == '̌' || c == '̊'

/-- Canonical (NFD) decomposition, restricted to the Czech/Slovak accented
letters the system documents (á č ď é ě í ľ ň ó ř š ť ú ů ý ž and their
uppercase forms); every other character decomposes to itself.  Models
`unicodedata.normalize("NFD", s)`. -/
def decompChar : Char → List Char
  | 'Á' => ['A', '́'] | 'á' => ['a', '́']
  | 'Č' => ['C', '̌'] | 'č' => ['c', '̌']
  | 'Ď' => ['D', '̌'] | 'ď' => ['d', '̌']
  | 'É' => ['E', '́'] | 'é' => ['e', '́']
  | 'Ě' => ['E', '̌'] | 'ě' => ['e', '̌']
  | 'Í' => ['I', '́'] | 'í' => ['i', '́']
  | 'Ľ' => ['L', '̌'] | 'ľ' => ['l', '̌']
  | 'Ň' => ['N', '̌'] | 'ň' => ['n', '̌']
  | 'Ó' => ['O', '́'] | 'ó' => ['o', '́']
  | 'Ř' => ['R', '̌'] | 'ř' => ['r', '̌']
  | 'Š' => ['S', '̌'] | 'š' => ['s', '̌']
  | 'Ť' => ['T', '̌'] | 'ť' => ['t', '̌']
  | 'Ú' => ['U', '́'] | 'ú' => ['u', '́']
  | 'Ů' => ['U', '̊'] | 'ů' => ['u', '̊']
  | 'Ý' => ['Y', '́'] | 'ý' => ['y', '́']
  | 'Ž' => ['Z', '̌'] | 'ž' => ['z', '̌']
  | c => [c]

/-- Whitespace characters removed by Python `str.strip()`. -/
def isSp (c : Char) : Bool :=
  c == ' ' || c == '\t' || c == '\n' || c == '\r' || c == '\x0b' || c == '\x0c'

/-- Drop whitespace on the left (`str.lstrip()`). -/
def trimL (l : List Char) : List Char := l.dropWhile isSp

/-- Drop whitespace on the right (`str.rstrip()`). -/
def trimR (l : List Char) : List Char := (l.reverse.dropWhile isSp).reverse

/-- Python `str.strip()`: drop whitespace at both ends. -/
def trim (l : List Char) : List Char := trimR (trimL l)

/-- The character pipeline of `_fold`: NFD-decompose, drop combining
marks, lowercase. -/
def foldList (l : List Char) : List Char :=
  ((l.flatMap decompChar).filter (fun c => !isMn c)).map toLowerM

/-- Function `_fold` from `app/api_server.py`: empty input gives `""`, otherwise
NFD-decompose, strip combining marks, lowercase, and strip outer
whitespace (`x.lower().strip()`). -/
def _fold (s : String) : String :=
  if s = "" then "" else ⟨trim (foldList s.data)⟩

/-! ### Stability of the fold pipeline -/

theorem dropWhile_dropWhile (p : Char → Bool) (l : List Char) :
    (l.dropWhile p).dropWhile p = l.dropWhile p := by
  induction l with
  | nil => simp
  | cons a l ih =>
    by_cases h : p a
    · simpa [List.dropWhile_cons, h] using ih
    · simp [List.dropWhile_cons, h]

theorem head_dropWhile_false {p : Char → Bool} {l : List Char} {a : Char}
    {as : List Char} (h : l.dropWhile p = a :: as) : p a = false := by
  induction l with
  | nil => simp at h
  | cons x xs ih =>
    by_cases hx : p x
    · exact ih (by simpa [List.dropWhile_cons, hx] using h)
    · rw [List.dropWhile_cons, if_neg (by simp [hx])] at h
      cases h
      simpa using hx

theorem dropWhile_of_head_false {p : Char → Bool} {l : List Char} {a : Char}
    {as : List Char} (hl : l = a :: as) (h : p a = false) :
    l.dropWhile p = l := by
  subst hl
  simp [List.dropWhile_cons, h]

theorem trimR_append (l : List Char) : ∃ t, trimR l ++ t = l := by
  obtain ⟨s, hs⟩ := List.dropWhile_suffix (l := l.reverse) isSp
  refine ⟨s.reverse, ?_⟩
  have := congrArg List.reverse hs
  simpa [trimR] using this

theorem mem_of_mem_trimR {l : List Char} {c : Char} (h : c ∈ trimR l) : c ∈ l := by
  obtain ⟨t, ht⟩ := trimR_append l
  rw [← ht]
  exact List.mem_append_left _ h

theorem mem_of_mem_trim {l : List Char} {c : Char} (h : c ∈ trim l) : c ∈ l := by
  have h1 : c ∈ trimL l := mem_of_mem_trimR h
  obtain ⟨s, hs⟩ := List.dropWhile_suffix (l := l) isSp
  rw [← hs]
  exact List.mem_append_right _ h1

theorem trimR_trimR (l : List Char) : trimR (trimR l) = trimR l := by
  simp [trimR, dropWhile_dropWhile]

theorem trim_trim (l : List Char) : trim (trim l) = trim l := by
  unfold trim
  set z := trimL l with hz
  have hzdrop : trimL z = z := dropWhile_dropWhile isSp l
  have hLR : trimL (trimR z) = trimR z := by
    cases htr : trimR z with
    | nil => simp [trimL]
    | cons a as =>
      obtain ⟨t, ht⟩ := trimR_append z
      rw [htr] at ht
      have hzhead : z.dropWhile isSp = a :: (as ++ t) := by
        calc z.dropWhile isSp = z := hzdrop
        _ = a :: (as ++ t) := by rw [← ht]; simp
      have hfz : isSp a = false := head_dropWhile_false hzhead
      exact dropWhile_of_head_false rfl hfz
  rw [hLR, trimR_trimR]

/-- Characters that the fold pipeline leaves unchanged: they decompose to
themselves, are not combining marks, and are already lowercase (for the
modelled case map). -/
def stableChar (c : Char) : Prop :=
  decompChar c = [c] ∧ isMn c = false ∧ toLowerM c = c

set_option maxHeartbeats 1000000 in
theorem stableChar_of_decomp {e d : Char} (hd : d ∈ decompChar e)
    (hmn : isMn d = false) : stableChar (toLowerM d) := by
  unfold stableChar
  unfold decompChar at hd
  split at hd
  all_goals try (simp at hd; rcases hd with rfl | rfl <;> revert hmn <;> decide)
  simp at hd
  subst hd
  unfold toLowerM
  split
  all_goals try decide
  refine ⟨?_, hmn, ?_⟩
  · unfold decompChar
    split
    all_goals first | rfl | (exfalso; simp_all)
  · split
    all_goals first | rfl | (exfalso; simp_all)

theorem mem_foldList_stable (l : List Char) :
    ∀ c ∈ foldList l, stableChar c := by
  intro c hc
  unfold foldList at hc
  simp only [List.mem_map, List.mem_filter, List.mem_flatMap,
    Bool.not_eq_true'] at hc
  obtain ⟨d, ⟨⟨e, _, hde⟩, hmn⟩, rfl⟩ := hc
  exact stableChar_of_decomp hde hmn

theorem foldList_of_stable {m : List Char} (h : ∀ c ∈ m, stableChar c) :
    foldList m = m := by
  unfold foldList
  have h1 : m.flatMap decompChar = m := by
    induction m with
    | nil => rfl
    | cons a as ih =>
      rw [List.flatMap_cons, (h a (List.mem_cons_self a as)).1,
        ih (fun c hc => h c (List.mem_cons_of_mem a hc))]
      rfl
  rw [h1]
  have h2 : m.filter (fun c => !isMn c) = m :=
    List.filter_eq_self.mpr (fun a ha => by simp [(h a ha).2.1])
  rw [h2]
  have h3 : ∀ a ∈ m, toLowerM a = a := fun a ha => (h a ha).2.2
  calc m.map toLowerM = m.map id := List.map_congr_left h3
  _ = m := List.map_id m

theorem fold_idem (s : String) : _fold (_fold s) = _fold s := by
  by_cases hs : s = ""
  · subst hs; rfl
  · have hfs : _fold s = ⟨trim (foldList s.data)⟩ := by rw [_fold, if_neg hs]
    rw [hfs]
    by_cases hr : (⟨trim (foldList s.data)⟩ : String) = ""
    · rw [_fold, if_pos hr]
      exact hr.symm
    · rw [_fold, if_neg hr]
      have hst : ∀ c ∈ trim (foldList s.data), stableChar c := fun c hc =>
        mem_foldList_stable s.data c (mem_of_mem_trim hc)
      show (⟨trim (foldList (trim (foldList s.data)))⟩ : String) = _
      rw [foldList_of_stable hst, trim_trim]

/-! ### Substring matching (Python `in`, SQL `LIKE '%pat%'`) -/

/-- Does `l` start with `p`?  (`str.startswith`). -/
def startsWithM : List Char → List Char → Bool
  | _, [] => true
  | [], _ :: _ => false
  | c :: cs, p :: ps => c == p && startsWithM cs ps

/-- Is `pat` a contiguous substring of `hay`?  Models Python `pat in hay`
and SQL `hay LIKE '%pat%'` for literal patterns. -/
def hasSubstr (hay pat : List Char) : Bool :=
  match hay with
  | [] => pat.isEmpty
  | _ :: t => startsWithM hay pat || hasSubstr t pat

/-- SQLite `col LIKE '%pat%'`: substring containment, ASCII
case-insensitive. -/
def likeSub (col pat : List Char) : Bool :=
  hasSubstr (col.map toLowerM) (pat.map toLowerM)

/-! ### Fuel classification -/

/-- Shared preprocessing `(user_fuel or "").strip().lower()`. -/
def fuelKey (s : String) : List Char := (trim s.data).map toLowerM

/-- Function `_fuel_norm` from `app/api_server.py`: substring-match the user's fuel
text against alias lists, first hit wins, in source order (diesel, petrol,
hybrid, electric, lpg, cng); no hit or empty input gives `none`. -/
def _fuel_norm (user_fuel : String) : Option String :=
  let f := fuelKey user_fuel
  if f = [] then none
  else if ["naft", "diesel", "dízel", "dizel"].any (fun k => hasSubstr f k.data) then
    some "diesel"
  else if ["benz", "petrol", "gasoline", "ba"].any (fun k => hasSubstr f k.data) then
    some "petrol"
  else if hasSubstr f "hybr".data then some "hybrid"
  else if ["ev", "elekt", "electr"].any (fun k => hasSubstr f k.data) then
    some "elect."
  else if hasSubstr f "lpg".data || hasSubstr f "plyn".data then some "lpg"
  else if hasSubstr f "cng".data then some "cng"
  else none

/-- Function `_fuel_patterns` from `app/api_server.py`; each returned string `x`
stands for the SQL pattern `'%x%'`. -/
def _fuel_patterns (user_fuel : String) : List String :=
  let f := fuelKey user_fuel
  if f = [] then []
  else if ["nafta", "diesel", "d", "de", "dizel", "dízel"].any (fun k => f = k.data) then
    ["naft", "dies"]
  else if ["benzin", "benzín", "ba", "petrol", "gasoline", "benz"].any (fun k => f = k.data) then
    ["benz"]
  else if ["lpg", "autoplyn", "plyn"].any (fun k => f = k.data) then
    ["lpg", "autoplyn", "plyn"]
  else if f = "cng".data then ["cng"]
  else if ["hybrid", "hev", "phev", "plugin-hybrid", "plug-in hybrid", "plug-in"].any (fun k => f = k.data) then
    ["hybr"]
  else if ["ev", "electro", "electric", "elektro"].any (fun k => f = k.data) then
    ["elekt"]
  else [⟨f⟩]

/-- Function `guess_fuel` from `app/sources/sauto.py`: classify a motor/fuel text by
engine-code substrings (tdi/dci/cdti → nafta, tsi/mpi → benzin, ...),
falling back to `fallback`. -/
def guess_fuel (motor_text : String) (fallback : String := "") : String :=
  let m := motor_text.data.map toLowerM
  if hasSubstr m "tdi".data || hasSubstr m "dci".data || hasSubstr m "cdti".data
      || hasSubstr m "nafta".data then "nafta"
  else if hasSubstr m "tsi".data || hasSubstr m "mpi".data
      || hasSubstr m "benzin".data then "benzin"
  else if hasSubstr m "hybrid".data then "hybrid"
  else if hasSubstr m "elektro".data || hasSubstr m "ev".data then "elektro"
  else fallback

/-! ### The `listings_fresh` rows and the `_query_rows` WHERE clause -/

/-- One row of the `listings_fresh` view, restricted to the columns
`_query_rows` selects and filters on.  The `*_fold` / `fuel_norm` columns
may be absent from the view (`COALESCE` in the SQL), hence `Option`;
`fuel`, `motor` and `price_czk` are nullable columns. -/
structure Listing where
  brand : String := ""
  model : String := ""
  brand_fold : Option String := none
  model_fold : Option String := none
  model_base_fold : Option String := none
  fuel_norm : Option String := none
  year : ℤ := 0
  mileage : ℤ := 0
  fuel : Option String := none
  motor : Option String := none
  price_czk : Option ℤ := none
deriving DecidableEq

/-- SQL `LOWER` (ASCII) of a text column. -/
def lowerL (s : String) : List Char := s.data.map toLowerM

/-- Clause `COALESCE(brand_fold, LOWER(brand)) LIKE '%' || fold(brand) || '%'`. -/
def brandClause (brand : String) (r : Listing) : Bool :=
  likeSub (match r.brand_fold with
            | some bf => bf.data
            | none => lowerL r.brand)
    (_fold brand).data

/-- Clause `(COALESCE(model_fold, LOWER(model)) LIKE pat OR
COALESCE(model_base_fold, COALESCE(model_fold, LOWER(model))) LIKE pat)`
with `pat = '%' || fold(model) || '%'`. -/
def modelClause (model : String) (r : Listing) : Bool :=
  let pat := (_fold model).data
  let mcol := match r.model_fold with
              | some mf => mf.data
              | none => lowerL r.model
  let mbcol := match r.model_base_fold with
               | some mb => mb.data
               | none => mcol
  likeSub mcol pat || likeSub mbcol pat

/-- The fuel condition of `_query_rows`: absent/empty fuel argument adds no
clause; else when `_fuel_norm` classifies it, match
`COALESCE(fuel_norm,'') = norm OR LOWER(fuel) LIKE '%norm%'`; otherwise
any of the `_fuel_patterns` must `LIKE`-match (a NULL `fuel` column fails
every `LIKE`). -/
def fuelClause (fuel : Option String) (r : Listing) : Bool :=
  match fuel with
  | none => true
  | some fs =>
    if fs = "" then true
    else
      match _fuel_norm fs with
      | some norm =>
        (r.fuel_norm.getD "" == norm) ||
          (match r.fuel with
           | some f => likeSub f.data norm.data
           | none => false)
      | none =>
        match _fuel_patterns fs with
        | [] => true
        | pats =>
          pats.any (fun p =>
            match r.fuel with
            | some f => likeSub f.data p.data
            | none => false)

/-- The motor condition of `_query_rows`: absent/blank motor argument adds
no clause; else `LOWER(REPLACE(COALESCE(motor,''), ' ', '')) LIKE
'%m-without-spaces%' OR LOWER(COALESCE(motor,'')) LIKE '%m%'` where `m`
is the stripped, lowered argument. -/
def motorClause (motor : Option String) (r : Listing) : Bool :=
  match motor with
  | none => true
  | some ms =>
    let m := (trim ms.data).map toLowerM
    if m = [] then true
    else
      let col := (r.motor.getD "").data
      likeSub (col.filter (fun c => !(c == ' '))) (m.filter (fun c => !(c == ' ')))
        || likeSub col m

/-- The full WHERE clause of `_query_rows`, in source order: brand, model,
year window, mileage window (lower bound clamped at 0), fuel, motor.
`BETWEEN` is inclusive on both ends. -/
def passes (brand model : String) (year mileage window_km window_year : ℤ)
    (fuel motor : Option String) (r : Listing) : Bool :=
  brandClause brand r && modelClause model r
    && decide (year - window_year ≤ r.year ∧ r.year ≤ year + window_year)
    && decide (max 0 (mileage - window_km) ≤ r.mileage ∧ r.mileage ≤ mileage + window_km)
    && fuelClause fuel r && motorClause motor r

/-- The non-window conjuncts of the WHERE clause (brand, model, fuel,
motor). -/
def otherOK (brand model : String) (fuel motor : Option String) (r : Listing) : Bool :=
  brandClause brand r && modelClause model r && fuelClause fuel r && motorClause motor r

/-- Ascending SQL comparison on a nullable `price_czk` column: `NULL`
orders before every value. -/
def optPriceLE : Option ℤ → Option ℤ → Prop
  | none, _ => True
  | some _, none => False
  | some a, some b => a ≤ b

instance : DecidableRel optPriceLE := fun a b =>
  match a, b with
  | none, _ => isTrue trivial
  | some _, none => isFalse id
  | some x, some y => inferInstanceAs (Decidable (x ≤ y))

/-- The `ORDER BY ABS(year - ?) ASC, ABS(mileage - ?) ASC, price_czk ASC`
comparison of `_query_rows`, as a total preorder on rows. -/
def keyLE (year mileage : ℤ) (a b : Listing) : Prop :=
  (a.year - year).natAbs < (b.year - year).natAbs ∨
    ((a.year - year).natAbs = (b.year - year).natAbs ∧
      ((a.mileage - mileage).natAbs < (b.mileage - mileage).natAbs ∨
        ((a.mileage - mileage).natAbs = (b.mileage - mileage).natAbs ∧
          optPriceLE a.price_czk b.price_czk)))

instance (year mileage : ℤ) : DecidableRel (keyLE year mileage) := fun a b => by
  unfold keyLE
  infer_instance

theorem optPriceLE_total (a b : Option ℤ) : optPriceLE a b ∨ optPriceLE b a := by
  rcases a with _ | x <;> rcases b with _ | y
  · left; trivial
  · left; trivial
  · right; trivial
  · simpa [optPriceLE] using le_total x y

theorem optPriceLE_trans {a b c : Option ℤ} (h1 : optPriceLE a b)
    (h2 : optPriceLE b c) : optPriceLE a c := by
  rcases a with _ | x <;> rcases b with _ | y <;> rcases c with _ | z <;>
    simp_all [optPriceLE]
  omega

instance (year mileage : ℤ) : IsTotal Listing (keyLE year mileage) := by
  constructor
  intro a b
  unfold keyLE
  rcases Nat.lt_trichotomy (a.year - year).natAbs (b.year - year).natAbs with hy | hy | hy
  · exact Or.inl (Or.inl hy)
  · rcases Nat.lt_trichotomy (a.mileage - mileage).natAbs (b.mileage - mileage).natAbs with
      hm | hm | hm
    · exact Or.inl (Or.inr ⟨hy, Or.inl hm⟩)
    · rcases optPriceLE_total a.price_czk b.price_czk with hp | hp
      · exact Or.inl (Or.inr ⟨hy, Or.inr ⟨hm, hp⟩⟩)
      · exact Or.inr (Or.inr ⟨hy.symm, Or.inr ⟨hm.symm, hp⟩⟩)
    · exact Or.inr (Or.inr ⟨hy.symm, Or.inl hm⟩)
  · exact Or.inr (Or.inl hy)

instance (year mileage : ℤ) : IsTrans Listing (keyLE year mileage) := by
  constructor
  intro a b c h1 h2
  unfold keyLE at *
  rcases h1 with h1 | ⟨h1e, h1m⟩ <;> rcases h2 with h2 | ⟨h2e, h2m⟩
  · left; omega
  · left; omega
  · left; omega
  · rcases h1m with h1m | ⟨h1me, h1p⟩ <;> rcases h2m with h2m | ⟨h2me, h2p⟩
    · right; exact ⟨by omega, Or.inl (by omega)⟩
    · right; exact ⟨by omega, Or.inl (by omega)⟩
    · right; exact ⟨by omega, Or.inl (by omega)⟩
    · exact Or.inr ⟨by omega, Or.inr ⟨by omega, optPriceLE_trans h1p h2p⟩⟩

/-- Function `_query_rows` from `app/api_server.py`, over a given pool standing for
the `listings_fresh` view: filter by the WHERE clause, sort by the ORDER
BY key, truncate to LIMIT. -/
def queryRows (pool : List Listing) (brand model : String)
    (year mileage window_km window_year : ℤ)
    (fuel motor : Option String) (limit : ℕ) : List Listing :=
  (List.insertionSort (keyLE year mileage)
    (pool.filter (passes brand model year mileage window_km window_year fuel motor))).take
    limit

/-! ### The price estimator (`app/estimators.py`) and the inline
estimator of `/price/estimate` (`app/api_server.py`) -/

/-- A row as consumed by the estimators: the fields
`estimate_from_rows` / `price_estimate` read from a listing dict.  A
price that is absent or unparseable is `none`; prices are idealised as
exact rationals (Python floats). -/
structure ERow where
  price_czk : Option ℚ := none
  year : Option ℤ := none
  mileage : Option ℤ := none
  motor : Option String := none
deriving DecidableEq

/-- Python 3 `round(x)` to an integer: round half to even. -/
def pyRound (q : ℚ) : ℤ :=
  if q - ⌊q⌋ < 1 / 2 then ⌊q⌋
  else if 1 / 2 < q - ⌊q⌋ then ⌊q⌋ + 1
  else if ⌊q⌋ % 2 = 0 then ⌊q⌋ else ⌊q⌋ + 1

/-- Python list indexing `l[i]` (negative indices count from the end);
out-of-range access is defaulted to 0 (the sources only index in
range). -/
def pyGet (l : List ℚ) (i : ℤ) : ℚ :=
  if 0 ≤ i then l.getD i.toNat 0 else l.getD ((l.length : ℤ) + i).toNat 0

/-- Function `_percentile` from `app/estimators.py`: linear interpolation between
order statistics.  `k = (n-1)·p`; if `⌊k⌋ = ⌈k⌉` the value is
`sorted_vals[int(k)]`, otherwise `sorted_vals[⌊k⌋]·(⌈k⌉-k) +
sorted_vals[⌈k⌉]·(k-⌊k⌋)`.  The `float("nan")` returned for an empty
list is modelled as `none`. -/
def _percentile (sorted_vals : List ℚ) (p : ℚ) : Option ℚ :=
  if sorted_vals = [] then none
  else
    let k : ℚ := ((sorted_vals.length : ℚ) - 1) * p
    if ⌊k⌋ = ⌈k⌉ then some (pyGet sorted_vals ⌊k⌋)
    else some (pyGet sorted_vals ⌊k⌋ * ((⌈k⌉ : ℚ) - k)
      + pyGet sorted_vals ⌈k⌉ * (k - (⌊k⌋ : ℚ)))

/-- The weight `estimate_from_rows` assigns to a row: decay with year and
mileage distance from the target, a 1.15 boost on a motor-hint substring
match.  (`mh` is the stripped, lowered motor hint.) -/
def rowWeight (target_year target_mileage : ℤ) (mh : List Char) (r : ERow) : ℚ :=
  let w1 : ℚ := 1
  let w2 : ℚ := match r.year with
    | some y => w1 * (1 / (1 + ((y - target_year).natAbs : ℚ) * (1 / 10)))
    | none => w1
  let w3 : ℚ := match r.mileage with
    | some m => w2 * (1 / (1 + ((m - target_mileage).natAbs : ℚ) / 50000))
    | none => w2
  let motorL := (r.motor.getD "").data.map toLowerM
  if mh ≠ [] ∧ hasSubstr motorL mh then w3 * (23 / 20) else w3

/-- The result dict of `estimate_from_rows`; `None` fields (from `NaN`
percentiles) are `none`. -/
structure Estimate where
  price_czk : Option ℤ
  low_czk : Option ℤ
  high_czk : Option ℤ
  count : ℕ
deriving DecidableEq

/-- Function `estimate_from_rows` from `app/estimators.py`: keep the rows with a
parseable price together with their weights, sort the (price, weight)
pairs by price, and return the rounded 50th/25th/75th percentiles of the
sorted prices plus the sample count; `None` when no row has a price. -/
def estimate_from_rows (rows : List ERow) (target_year target_mileage : ℤ)
    (motor_hint : String) : Option Estimate :=
  let mh := (trim motor_hint.data).map toLowerM
  let pw : List (ℚ × ℚ) := rows.filterMap (fun r =>
    r.price_czk.map (fun p => (p, rowWeight target_year target_mileage mh r)))
  if pw = [] then none
  else
    let paired := List.insertionSort (fun a b : ℚ × ℚ => a.1 ≤ b.1) pw
    let sp := paired.map Prod.fst
    some { price_czk := (_percentile sp (1 / 2)).map pyRound
           low_czk := (_percentile sp (1 / 4)).map pyRound
           high_czk := (_percentile sp (3 / 4)).map pyRound
           count := sp.length }

/-- The prices `estimate_from_rows` retains: exactly the parseable
(present) ones, in row order. -/
def retainedPrices (rows : List ERow) : List ℚ :=
  rows.filterMap (fun r => r.price_czk)

/-- The retained prices sorted ascending. -/
def sortedPrices (rows : List ERow) : List ℚ :=
  List.insertionSort (· ≤ ·) (retainedPrices rows)

/-- Python `statistics.mean`. -/
def pyMean (l : List ℚ) : ℚ := l.sum / (l.length : ℚ)

/-- Python `statistics.median`: middle element of the sorted list, or the mean of
the two middle elements for an even-length list. -/
def pyMedian (l : List ℚ) : ℚ :=
  let s := List.insertionSort (· ≤ ·) l
  let n := s.length
  if n % 2 = 1 then pyGet s ((n : ℤ) / 2)
  else (pyGet s ((n : ℤ) / 2 - 1) + pyGet s ((n : ℤ) / 2)) / 2

/-- Minimum of a price list (`min(prices)`; the sources only apply it to
non-empty lists). -/
def listMin : List ℚ → ℚ
  | [] => 0
  | x :: xs => xs.foldl min x

/-- Maximum of a price list (`max(prices)`). -/
def listMax : List ℚ → ℚ
  | [] => 0
  | x :: xs => xs.foldl max x

/-- The JSON body returned by `/price/estimate` in the non-degenerate
case. -/
structure ApiOk where
  price_czk : ℤ
  low_czk : ℤ
  high_czk : ℤ
  count : ℕ
  found : ℕ
  mean : ℤ
  median : ℤ
  min : ℚ
  max : ℚ
deriving DecidableEq

/-- The three possible responses of `/price/estimate` after the query:
no rows, rows but no truthy price, or the statistics dict. -/
inductive ApiResult where
  | noRows : ApiResult
  | noPrices : ℕ → ApiResult
  | ok : ApiOk → ApiResult
deriving DecidableEq

/-- The estimation part of the `/price/estimate` handler in
`app/api_server.py`: keep truthy prices (`if r["price_czk"]` drops `None`
and `0` but keeps negatives), then `median`, `low = max(min(prices),
median·0.94)`, `high = min(max(prices), median·1.18)`, with rounded
outputs and raw `min`/`max`. -/
def price_estimate (rows : List ERow) : ApiResult :=
  if rows = [] then ApiResult.noRows
  else
    let prices := rows.filterMap (fun r =>
      match r.price_czk with
      | some p => if p = 0 then none else some p
      | none => none)
    if prices = [] then ApiResult.noPrices rows.length
    else
      let mean_price := pyMean prices
      let median_price := pyMedian prices
      let low := max (listMin prices) (median_price * (94 / 100))
      let high := min (listMax prices) (median_price * (118 / 100))
      ApiResult.ok
        { price_czk := pyRound median_price
          low_czk := pyRound low
          high_czk := pyRound high
          count := prices.length
          found := prices.length
          mean := pyRound mean_price
          median := pyRound median_price
          min := listMin prices
          max := listMax prices }

/-! ### Sorting (price, weight) pairs by price projects to sorting the
prices -/

theorem map_fst_orderedInsert (x : ℚ × ℚ) (l : List (ℚ × ℚ)) :
    (List.orderedInsert (fun a b : ℚ × ℚ => a.1 ≤ b.1) x l).map Prod.fst =
      List.orderedInsert (· ≤ ·) x.1 (l.map Prod.fst) := by
  induction l with
  | nil => rfl
  | cons y ys ih =>
    by_cases h : x.1 ≤ y.1 <;>
      simp [List.orderedInsert, h, ih]

theorem map_fst_insertionSort (l : List (ℚ × ℚ)) :
    (List.insertionSort (fun a b : ℚ × ℚ => a.1 ≤ b.1) l).map Prod.fst =
      List.insertionSort (· ≤ ·) (l.map Prod.fst) := by
  induction l with
  | nil => rfl
  | cons x xs ih =>
    simp only [List.insertionSort, map_fst_orderedInsert, ih, List.map_cons]

theorem map_fst_pairs (rows : List ERow) (ty tm : ℤ) (mh : List Char) :
    (rows.filterMap (fun r =>
      r.price_czk.map (fun p => (p, rowWeight ty tm mh r)))).map Prod.fst =
      retainedPrices rows := by
  rw [List.map_filterMap, retainedPrices]
  congr 1
  funext r
  cases r.price_czk <;> rfl

/-- Rewriting `estimate_from_rows` in terms of the sorted retained prices: all the
weight bookkeeping is dead for the output. -/
theorem estimate_from_rows_eq (rows : List ERow) (ty tm : ℤ) (mh : String) :
    estimate_from_rows rows ty tm mh =
      if retainedPrices rows = [] then none
      else some
        { price_czk := (_percentile (sortedPrices rows) (1 / 2)).map pyRound
          low_czk := (_percentile (sortedPrices rows) (1 / 4)).map pyRound
          high_czk := (_percentile (sortedPrices rows) (3 / 4)).map pyRound
          count := (sortedPrices rows).length } := by
  unfold estimate_from_rows
  have hfst := map_fst_pairs rows ty tm ((trim mh.data).map toLowerM)
  have hempty : rows.filterMap (fun r =>
      r.price_czk.map (fun p => (p, rowWeight ty tm ((trim mh.data).map toLowerM) r))) = [] ↔
      retainedPrices rows = [] := by
    rw [← hfst]
    constructor
    · intro h; rw [h]; rfl
    · intro h; exact List.map_eq_nil_iff.mp h
  by_cases hc : rows.filterMap (fun r =>
      r.price_czk.map (fun p => (p, rowWeight ty tm ((trim mh.data).map toLowerM) r))) = []
  · rw [if_pos hc, if_pos (hempty.mp hc)]
  · rw [if_neg hc, if_neg (fun h => hc (hempty.mpr h))]
    dsimp only
    rw [map_fst_insertionSort, hfst]
    rfl

/-! ### Percentile lemmas -/

theorem percentile_eq_interp (l : List ℚ) (p : ℚ) (hl : l ≠ []) :
    _percentile l p =
      some (pyGet l ⌊((l.length : ℚ) - 1) * p⌋ +
        (pyGet l ⌈((l.length : ℚ) - 1) * p⌉ - pyGet l ⌊((l.length : ℚ) - 1) * p⌋) *
          (((l.length : ℚ) - 1) * p - (⌊((l.length : ℚ) - 1) * p⌋ : ℚ))) := by
  unfold _percentile
  rw [if_neg hl]
  set k : ℚ := ((l.length : ℚ) - 1) * p with hk
  by_cases h : ⌊k⌋ = ⌈k⌉
  · rw [if_pos h]
    have hkf : (⌊k⌋ : ℚ) = k := by
      refine le_antisymm (Int.floor_le k) ?_
      calc k ≤ (⌈k⌉ : ℚ) := Int.le_ceil k
      _ = (⌊k⌋ : ℚ) := by rw [← h]
    congr 1
    rw [show k - (⌊k⌋ : ℚ) = 0 by rw [hkf]; ring]
    ring
  · rw [if_neg h]
    have hne : (⌊k⌋ : ℚ) ≠ k := by
      intro he
      apply h
      rw [← he, Int.ceil_intCast, Int.floor_intCast]
    have hlt : (⌊k⌋ : ℚ) < k := lt_of_le_of_ne (Int.floor_le k) hne
    have hceil : ⌈k⌉ = ⌊k⌋ + 1 := by
      refine le_antisymm ?_ ?_
      · exact Int.ceil_le.mpr (le_of_lt (by exact_mod_cast Int.lt_floor_add_one k))
      · exact Int.add_one_le_iff.mpr (Int.lt_ceil.mpr hlt)
    congr 1
    rw [hceil]
    push_cast
    ring

theorem percentile_singleton (x p : ℚ) : _percentile [x] p = some x := by
  have h : ((([x] : List ℚ).length : ℚ) - 1) * p = 0 := by simp
  unfold _percentile
  rw [if_neg (by simp)]
  simp only [h, Int.floor_zero, Int.ceil_zero, if_pos rfl]
  rfl

/-- C6: the percentile computation linearly interpolates between order
statistics: with `k = (n-1)·p`, the result equals
`prices[⌊k⌋] + (prices[⌈k⌉] - prices[⌊k⌋])·(k - ⌊k⌋)` (so `prices[k]`
when `k` is integral), and on `[100, 200, 300, 400]` the 50th, 25th and
75th percentiles are 250, 175 and 325. -/
theorem percentile_linear_interpolation :
    (_percentile [100, 200, 300, 400] (1 / 2) = some 250 ∧
     _percentile [100, 200, 300, 400] (1 / 4) = some 175 ∧
     _percentile [100, 200, 300, 400] (3 / 4) = some 325) ∧
    ∀ (l : List ℚ) (p : ℚ), l ≠ [] →
      _percentile l p =
        some (pyGet l ⌊((l.length : ℚ) - 1) * p⌋ +
          (pyGet l ⌈((l.length : ℚ) - 1) * p⌉ - pyGet l ⌊((l.length : ℚ) - 1) * p⌋) *
            (((l.length : ℚ) - 1) * p - (⌊((l.length : ℚ) - 1) * p⌋ : ℚ))) := by
  constructor
  · refine ⟨?_, ?_, ?_⟩
    · rw [percentile_eq_interp _ _ (by simp)]
      rw [show ((([100, 200, 300, 400] : List ℚ).length : ℚ) - 1) * (1 / 2) = 3 / 2 by
        norm_num]
      rw [show ⌊(3 : ℚ) / 2⌋ = 1 by norm_num, show ⌈(3 : ℚ) / 2⌉ = 2 by
        norm_num [Int.ceil_eq_iff]]
      rw [show pyGet [100, 200, 300, 400] 1 = 200 by simp [pyGet],
        show pyGet [100, 200, 300, 400] 2 = 300 by simp [pyGet]]
      norm_num
    · rw [percentile_eq_interp _ _ (by simp)]
      rw [show ((([100, 200, 300, 400] : List ℚ).length : ℚ) - 1) * (1 / 4) = 3 / 4 by
        norm_num]
      rw [show ⌊(3 : ℚ) / 4⌋ = 0 by norm_num, show ⌈(3 : ℚ) / 4⌉ = 1 by
        norm_num [Int.ceil_eq_iff]]
      rw [show pyGet [100, 200, 300, 400] 0 = 100 by simp [pyGet],
        show pyGet [100, 200, 300, 400] 1 = 200 by simp [pyGet]]
      norm_num
    · rw [percentile_eq_interp _ _ (by simp)]
      rw [show ((([100, 200, 300, 400] : List ℚ).length : ℚ) - 1) * (3 / 4) = 9 / 4 by
        norm_num]
      rw [show ⌊(9 : ℚ) / 4⌋ = 2 by norm_num, show ⌈(9 : ℚ) / 4⌉ = 3 by
        norm_num [Int.ceil_eq_iff]]
      rw [show pyGet [100, 200, 300, 400] 2 = 300 by simp [pyGet],
        show pyGet [100, 200, 300, 400] 3 = 400 by simp [pyGet]]
      norm_num
  · exact percentile_eq_interp

/-- Witness for C6's general clause at `l = [10, 20]`, `p = 1/2`: the
interpolated median of two values is their midpoint. -/
theorem percentile_linear_interpolation_witness :
    _percentile [10, 20] (1 / 2) = some 15 := by
  have h := percentile_linear_interpolation.2 [10, 20] (1 / 2) (by simp)
  rw [h]
  rw [show ((([10, 20] : List ℚ).length : ℚ) - 1) * (1 / 2) = 1 / 2 by norm_num]
  rw [show ⌊(1 : ℚ) / 2⌋ = 0 by norm_num, show ⌈(1 : ℚ) / 2⌉ = 1 by
    norm_num [Int.ceil_eq_iff]]
  norm_num [pyGet]

/-! ### Estimator claims -/

theorem insertionSort_rat_eq_of_perm {l₁ l₂ : List ℚ} (h : l₁.Perm l₂) :
    List.insertionSort (· ≤ ·) l₁ = List.insertionSort (· ≤ ·) l₂ :=
  List.eq_of_perm_of_sorted
    ((List.perm_insertionSort _ _).trans (h.trans (List.perm_insertionSort _ _).symm))
    (List.sorted_insertionSort _ _) (List.sorted_insertionSort _ _)

/-- C3: on every input whose retained price sample is non-empty, the
estimator returns exactly the rounded 25th/50th/75th percentiles of the
sorted retained prices as low/median/high, plus the sample count. -/
theorem estimator_returns_iqr_band : ∀ (rows : List ERow) (ty tm : ℤ) (mh : String),
    retainedPrices rows ≠ [] →
    estimate_from_rows rows ty tm mh = some
      { price_czk := (_percentile (sortedPrices rows) (1 / 2)).map pyRound
        low_czk := (_percentile (sortedPrices rows) (1 / 4)).map pyRound
        high_czk := (_percentile (sortedPrices rows) (3 / 4)).map pyRound
        count := (sortedPrices rows).length } := by
  intro rows ty tm mh h
  rw [estimate_from_rows_eq, if_neg h]

/-- A single-price row used by the estimator witnesses. -/
def c3row : ERow := { price_czk := some 100 }

/-- Witness for C3 on a one-row input. -/
theorem estimator_returns_iqr_band_witness :
    estimate_from_rows [c3row] 0 0 "" = some
      { price_czk := (_percentile (sortedPrices [c3row]) (1 / 2)).map pyRound
        low_czk := (_percentile (sortedPrices [c3row]) (1 / 4)).map pyRound
        high_czk := (_percentile (sortedPrices [c3row]) (3 / 4)).map pyRound
        count := (sortedPrices [c3row]).length } :=
  estimator_returns_iqr_band [c3row] 0 0 "" (by decide)

/-- C7: the estimator returns the `NoData` terminal (`None`, carrying no
numeric fields) exactly when no candidate carries a parseable price; in
particular the empty candidate list gives `NoData`.  The embedding is a
total function, so no exception is possible on well-formed input. -/
theorem estimator_no_data_terminal : ∀ (rows : List ERow) (ty tm : ℤ) (mh : String),
    (estimate_from_rows rows ty tm mh = none ↔ retainedPrices rows = []) ∧
    estimate_from_rows [] ty tm mh = none := by
  intro rows ty tm mh
  constructor
  · rw [estimate_from_rows_eq]
    by_cases h : retainedPrices rows = []
    · simp [h]
    · simp [h]
  · rfl

/-- C10: the estimator's output is a function of the multiset of retained
prices alone — the target year, target mileage and motor hint (hence all
the weights) never influence the result. -/
theorem estimator_ignores_weights :
    ∀ (rows₁ rows₂ : List ERow) (ty₁ tm₁ : ℤ) (mh₁ : String) (ty₂ tm₂ : ℤ) (mh₂ : String),
    (retainedPrices rows₁).Perm (retainedPrices rows₂) →
    estimate_from_rows rows₁ ty₁ tm₁ mh₁ = estimate_from_rows rows₂ ty₂ tm₂ mh₂ := by
  intro rows₁ rows₂ ty₁ tm₁ mh₁ ty₂ tm₂ mh₂ h
  rw [estimate_from_rows_eq, estimate_from_rows_eq]
  have hsort : sortedPrices rows₁ = sortedPrices rows₂ := by
    rw [sortedPrices, sortedPrices]
    exact insertionSort_rat_eq_of_perm h
  have hnil : retainedPrices rows₁ = [] ↔ retainedPrices rows₂ = [] := by
    constructor
    · intro hh; rw [hh] at h; exact h.symm.eq_nil
    · intro hh; rw [hh] at h; exact h.eq_nil
  by_cases h1 : retainedPrices rows₁ = []
  · rw [if_pos h1, if_pos (hnil.mp h1)]
  · rw [if_neg h1, if_neg (fun hh => h1 (hnil.mpr hh)), hsort]

/-- Rows for the C10 witness: same price multiset {5, 7}, different order,
different years/mileages/motors, queried with different targets. -/
def c10rowsA : List ERow := [{ price_czk := some 7 },
  { price_czk := some 5, year := some 99, mileage := some 4, motor := some "tdi" }]

/-- Second row list for the C10 witness. -/
def c10rowsB : List ERow := [{ price_czk := some 5 },
  { price_czk := some 7, year := some 1 }]

/-- Witness for C10: equal price multisets force equal outputs even with
different targets and hints. -/
theorem estimator_ignores_weights_witness :
    estimate_from_rows c10rowsA 2020 100000 "tdi" = estimate_from_rows c10rowsB 0 0 "" :=
  estimator_ignores_weights c10rowsA c10rowsB 2020 100000 "tdi" 0 0 "" (by decide)

/-- C4 (amended): the estimator discards exactly the rows whose price is
missing; every parseable price — zero and negative ones included — is
retained and counted. -/
theorem estimator_discards_only_missing : ∀ (rows : List ERow) (ty tm : ℤ) (mh : String),
    (estimate_from_rows rows ty tm mh).map Estimate.count =
      if retainedPrices rows = [] then none else some (retainedPrices rows).length := by
  intro rows ty tm mh
  rw [estimate_from_rows_eq]
  by_cases h : retainedPrices rows = []
  · rw [if_pos h, if_pos h]
    rfl
  · rw [if_neg h, if_neg h]
    show some (sortedPrices rows).length = some (retainedPrices rows).length
    congr 1
    rw [sortedPrices]
    exact (List.perm_insertionSort _ _).length_eq

/-- An estimator row with a negative price. -/
def eRowNeg : ERow := { price_czk := some (-100) }

/-- An estimator row with a zero price. -/
def eRowZero : ERow := { price_czk := some 0 }

theorem percentile_map_pyRound_neg100 (p : ℚ) :
    (_percentile [(-100 : ℚ)] p).map pyRound = some (-100) := by
  rw [percentile_singleton]
  show some (pyRound (-100)) = some (-100)
  norm_num [pyRound]

theorem percentile_map_pyRound_zero (p : ℚ) :
    (_percentile [(0 : ℚ)] p).map pyRound = some 0 := by
  rw [percentile_singleton]
  show some (pyRound 0) = some 0
  norm_num [pyRound]

/-- C4 counterexample: a candidate with price −100 (resp. 0) is NOT
discarded by `estimate_from_rows` — it becomes the whole sample, fixing
median/low/high and `count = 1`; and in the `/price/estimate` handler a
price of −100 survives the truthiness filter and yields `min = -100`,
`mean = median = -100`. -/
theorem estimator_negative_price_contributes :
    estimate_from_rows [eRowNeg] 0 0 "" =
      some { price_czk := some (-100)
             low_czk := some (-100)
             high_czk := some (-100)
             count := 1 } ∧
    estimate_from_rows [eRowZero] 0 0 "" =
      some { price_czk := some 0, low_czk := some 0, high_czk := some 0, count := 1 } ∧
    price_estimate [eRowNeg] =
      ApiResult.ok { price_czk := -100
                     low_czk := -94
                     high_czk := -118
                     count := 1
                     found := 1
                     mean := -100
                     median := -100
                     min := -100
                     max := -100 } := by
  refine ⟨?_, ?_, ?_⟩
  · rw [estimate_from_rows_eq, if_neg (by decide)]
    rw [show sortedPrices [eRowNeg] = [(-100 : ℚ)] from rfl]
    simp only [percentile_map_pyRound_neg100]
    rfl
  · rw [estimate_from_rows_eq, if_neg (by decide)]
    rw [show sortedPrices [eRowZero] = [(0 : ℚ)] from rfl]
    simp only [percentile_map_pyRound_zero]
    rfl
  · unfold price_estimate
    rw [if_neg (by decide)]
    dsimp only
    rw [show ([eRowNeg].filterMap (fun r =>
        match r.price_czk with
        | some p => if p = 0 then none else some p
        | none => none)) = [(-100 : ℚ)] by rfl]
    rw [if_neg (by decide)]
    have hmean : pyMean [(-100 : ℚ)] = -100 := by norm_num [pyMean]
    have hmed : pyMedian [(-100 : ℚ)] = -100 := by
      norm_num [pyMedian, pyGet]
    have hmin : listMin [(-100 : ℚ)] = -100 := rfl
    have hmax : listMax [(-100 : ℚ)] = -100 := rfl
    rw [hmean, hmed, hmin, hmax]
    rw [show max (-100 : ℚ) ((-100) * (94 / 100)) = -94 by norm_num,
      show min (-100 : ℚ) ((-100) * (118 / 100)) = -118 by norm_num]
    norm_num [pyRound]

/-! ### Fuel-classification claims -/

/-- C2 counterexample: the query-side fuel classifier `_fuel_norm` has no
engine-code aliases, so `"TDI 2.0"` and `"TSI"` classify as unknown
(`none`), not as diesel/petrol. -/
theorem fuel_norm_engine_codes_unknown :
    _fuel_norm "TDI 2.0" = none ∧ _fuel_norm "TSI" = none := by decide

/-- C2 (amended): `_fuel_norm` is deterministic with `""` (and any
engine-code-only text such as `"TDI 2.0"`, `"TSI"`) mapping to unknown;
its diesel aliases beat every later category and its petrol aliases beat
hybrid/electric; the scraper-side `guess_fuel` is the classifier that
maps engine codes (`tdi → nafta`/diesel, `tsi → benzin`/petrol). -/
theorem fuel_classification :
    _fuel_norm "TDI 2.0" = none ∧ _fuel_norm "TSI" = none ∧ _fuel_norm "" = none ∧
    guess_fuel "TDI 2.0" = "nafta" ∧ guess_fuel "TSI" = "benzin" ∧
    (∀ s : String,
      ["naft", "diesel", "dízel", "dizel"].any (fun k => hasSubstr (fuelKey s) k.data) = true →
      _fuel_norm s = some "diesel") ∧
    (∀ s : String,
      ["naft", "diesel", "dízel", "dizel"].any (fun k => hasSubstr (fuelKey s) k.data) = false →
      ["benz", "petrol", "gasoline", "ba"].any (fun k => hasSubstr (fuelKey s) k.data) = true →
      _fuel_norm s = some "petrol") := by
  refine ⟨by decide, by decide, by decide, by decide, by decide, ?_, ?_⟩
  · intro s h
    unfold _fuel_norm
    have hf : ¬fuelKey s = [] := by
      intro hfe
      rw [hfe] at h
      exact absurd h (by decide)
    rw [if_neg hf, if_pos h]
  · intro s h1 h2
    unfold _fuel_norm
    have hf : ¬fuelKey s = [] := by
      intro hfe
      rw [hfe] at h2
      exact absurd h2 (by decide)
    rw [if_neg hf, if_neg (by simp [h1]), if_pos h2]

/-- Witness for C2's priority clauses: text containing both a diesel alias
and the hybrid token classifies as diesel. -/
theorem fuel_classification_witness : _fuel_norm "nafta hybrid" = some "diesel" :=
  fuel_classification.2.2.2.2.2.1 "nafta hybrid" (by decide)

/-! ### Fold claims -/

/-- C9: `_fold` is an idempotent canonicalisation; its output is
lowercase (for the modelled case map), free of combining marks, and
whitespace-trimmed; and `"Škoda"` and `"Skoda"` both fold to
`"skoda"`. -/
theorem fold_idempotent_canonical :
    (∀ t : String, _fold (_fold t) = _fold t) ∧
    _fold "Škoda" = "skoda" ∧ _fold "Skoda" = "skoda" ∧
    (∀ t : String, trim (_fold t).data = (_fold t).data) ∧
    (∀ t : String, ∀ c ∈ (_fold t).data, toLowerM c = c ∧ isMn c = false) := by
  refine ⟨fold_idem, by decide, by decide, ?_, ?_⟩
  · intro t
    by_cases ht : t = ""
    · subst ht; rfl
    · have hfs : _fold t = ⟨trim (foldList t.data)⟩ := by rw [_fold, if_neg ht]
      rw [hfs]
      exact trim_trim (foldList t.data)
  · intro t c hc
    by_cases ht : t = ""
    · subst ht
      exact absurd hc (by simp [_fold])
    · have hfs : _fold t = ⟨trim (foldList t.data)⟩ := by rw [_fold, if_neg ht]
      rw [hfs] at hc
      have hst := mem_foldList_stable t.data c (mem_of_mem_trim hc)
      exact ⟨hst.2.2, hst.2.1⟩

/-! ### Selector claims -/

/-- C1 (amended): the Selector's output is sorted ascending by
`|candidate.year - target.year|` as the primary key, then
`|candidate.mileage - target.mileage|`, then `price_czk` ascending (SQL
`NULL`s first) — year distance, not mileage distance, is primary. -/
theorem query_order_year_primary :
    ∀ (pool : List Listing) (brand model : String) (year mileage wkm wy : ℤ)
      (fuel motor : Option String) (limit : ℕ),
    List.Pairwise (fun a b : Listing =>
      (a.year - year).natAbs < (b.year - year).natAbs ∨
        ((a.year - year).natAbs = (b.year - year).natAbs ∧
          ((a.mileage - mileage).natAbs < (b.mileage - mileage).natAbs ∨
            ((a.mileage - mileage).natAbs = (b.mileage - mileage).natAbs ∧
              optPriceLE a.price_czk b.price_czk))))
      (queryRows pool brand model year mileage wkm wy fuel motor limit) := by
  intro pool brand model year mileage wkm wy fuel motor limit
  have hs : List.Sorted (keyLE year mileage)
      (List.insertionSort (keyLE year mileage)
        (pool.filter (passes brand model year mileage wkm wy fuel motor))) :=
    List.sorted_insertionSort _ _
  exact List.Pairwise.sublist (List.take_sublist _ _) hs

/-- A candidate two years from the target but exactly at its mileage. -/
def rowA : Listing := { year := 2018, mileage := 100000, price_czk := some 1 }

/-- A candidate at the target year but 50000 km away. -/
def rowB : Listing := { year := 2020, mileage := 150000, price_czk := some 2 }

/-- C1 counterexample: `rowA` is strictly closer in mileage than `rowB`
(0 vs 50000), yet the Selector returns `rowB` first because `rowB` is
closer in year — mileage distance is not the primary sort key. -/
theorem query_order_counterexample :
    queryRows [rowA, rowB] "" "" 2020 100000 100000 5 none none 10 = [rowB, rowA] ∧
    (rowA.mileage - 100000).natAbs < (rowB.mileage - 100000).natAbs ∧
    (rowB.year - 2020).natAbs < (rowA.year - 2020).natAbs := by decide

/-- C5 (amended): the Selector never signals an error for negative
windows — a negative year or mileage window inverts the `BETWEEN` bounds,
so every candidate fails the filter and the result is silently empty; an
empty pool likewise yields an empty result. -/
theorem query_negative_window_empty :
    ∀ (pool : List Listing) (brand model : String) (year mileage wkm wy : ℤ)
      (fuel motor : Option String) (limit : ℕ),
    ((wy < 0 ∨ wkm < 0) →
      queryRows pool brand model year mileage wkm wy fuel motor limit = []) ∧
    queryRows [] brand model year mileage wkm wy fuel motor limit = [] := by
  intro pool brand model year mileage wkm wy fuel motor limit
  constructor
  · intro hneg
    unfold queryRows
    have hfil : pool.filter (passes brand model year mileage wkm wy fuel motor) = [] := by
      rw [List.filter_eq_nil_iff]
      intro r _ hps
      unfold passes at hps
      simp only [Bool.and_eq_true, decide_eq_true_eq] at hps
      obtain ⟨⟨⟨⟨⟨_, _⟩, hy⟩, hmi⟩, _⟩, _⟩ := hps
      rcases hneg with h | h
      · omega
      · omega
    rw [hfil]
    simp
  · unfold queryRows
    simp

/-- A candidate at exactly the target year and mileage. -/
def rowC5 : Listing := { year := 2020, mileage := 100000, price_czk := some 5 }

/-- C5 counterexample: a matching row is returned with window 1, but a
window of −1 (year or mileage) silently yields the empty result instead
of an `InvalidArgument` failure. -/
theorem query_negative_window_counterexample :
    queryRows [rowC5] "" "" 2020 100000 100000 (-1) none none 10 = [] ∧
    queryRows [rowC5] "" "" 2020 100000 (-1) 1 none none 10 = [] ∧
    queryRows [rowC5] "" "" 2020 100000 100000 1 none none 10 = [rowC5] := by decide

/-- Witness for C5's amended claim at a concrete negative year window. -/
theorem query_negative_window_empty_witness :
    queryRows [rowC5] "" "" 2020 100000 100000 (-1) none none 10 = [] :=
  (query_negative_window_empty [rowC5] "" "" 2020 100000 100000 (-1) none none 10).1
    (Or.inl (by decide))

/-- C8: when the limit does not truncate, a candidate is returned iff it
passes the non-window conjuncts and its year lies in the inclusive window
`[year - wy, year + wy]` and its mileage in
`[max 0 (mileage - wkm), mileage + wkm]`; a candidate with
`year = target + wy + 1` is never returned. -/
theorem query_window_inclusive :
    ∀ (pool : List Listing) (brand model : String) (year mileage wkm wy : ℤ)
      (fuel motor : Option String) (limit : ℕ) (r : Listing),
    pool.length ≤ limit →
    ((r ∈ queryRows pool brand model year mileage wkm wy fuel motor limit ↔
      (r ∈ pool ∧ otherOK brand model fuel motor r = true ∧
        year - wy ≤ r.year ∧ r.year ≤ year + wy ∧
        max 0 (mileage - wkm) ≤ r.mileage ∧ r.mileage ≤ mileage + wkm)) ∧
     (r.year = year + wy + 1 →
      r ∉ queryRows pool brand model year mileage wkm wy fuel motor limit)) := by
  intro pool brand model year mileage wkm wy fuel motor limit r hlim
  have hlen : (List.insertionSort (keyLE year mileage)
      (pool.filter (passes brand model year mileage wkm wy fuel motor))).length ≤ limit := by
    calc (List.insertionSort (keyLE year mileage)
        (pool.filter (passes brand model year mileage wkm wy fuel motor))).length
        = (pool.filter (passes brand model year mileage wkm wy fuel motor)).length :=
          (List.perm_insertionSort _ _).length_eq
      _ ≤ pool.length := List.length_filter_le _ _
      _ ≤ limit := hlim
  have hmem : r ∈ queryRows pool brand model year mileage wkm wy fuel motor limit ↔
      r ∈ pool.filter (passes brand model year mileage wkm wy fuel motor) := by
    unfold queryRows
    rw [List.take_of_length_le hlen]
    exact (List.perm_insertionSort _ _).mem_iff
  constructor
  · rw [hmem, List.mem_filter]
    constructor
    · rintro ⟨hp, hpass⟩
      refine ⟨hp, ?_⟩
      unfold passes at hpass
      unfold otherOK
      simp only [Bool.and_eq_true, decide_eq_true_eq] at hpass ⊢
      obtain ⟨⟨⟨⟨⟨hb, hm0⟩, hy⟩, hmi⟩, hf⟩, hmo⟩ := hpass
      exact ⟨⟨⟨⟨hb, hm0⟩, hf⟩, hmo⟩, hy.1, hy.2, hmi.1, hmi.2⟩
    · rintro ⟨hp, hok, hy1, hy2, hm1, hm2⟩
      refine ⟨hp, ?_⟩
      unfold otherOK at hok
      unfold passes
      simp only [Bool.and_eq_true, decide_eq_true_eq] at hok ⊢
      obtain ⟨⟨⟨hb, hm0⟩, hf⟩, hmo⟩ := hok
      exact ⟨⟨⟨⟨⟨hb, hm0⟩, hy1, hy2⟩, hm1, hm2⟩, hf⟩, hmo⟩
  · intro hyr hin
    rw [hmem, List.mem_filter] at hin
    have hpass := hin.2
    unfold passes at hpass
    simp only [Bool.and_eq_true, decide_eq_true_eq] at hpass
    obtain ⟨⟨⟨⟨⟨_, _⟩, hy⟩, _⟩, _⟩, _⟩ := hpass
    omega

/-- A candidate exactly at the upper edge of a year window of 1 around
2020. -/
def rowC8 : Listing := { year := 2021, mileage := 100000, price_czk := some 3 }

/-- Witness for C8: the edge-of-window candidate is returned. -/
theorem query_window_inclusive_witness :
    rowC8 ∈ queryRows [rowC8] "" "" 2020 100000 0 1 none none 5 :=
  ((query_window_inclusive [rowC8] "" "" 2020 100000 0 1 none none 5 rowC8
    (by decide)).1).mpr (by decide)

/-- Witness for C9 at `"Škoda"`: folding its fold changes nothing, and the
character `'s'` of the folded output is stable. -/
theorem fold_idempotent_canonical_witness :
    _fold (_fold "Škoda") = _fold "Škoda" ∧ (toLowerM 's' = 's' ∧ isMn 's' = false) :=
  ⟨fold_idempotent_canonical.1 "Škoda",
    fold_idempotent_canonical.2.2.2.2 "Škoda" 's' (by decide)⟩

end AutoScan
